import Mathlib

/-!
Shallow embedding of the balls-simulation core in `src/logic.py`.

Modelling conventions:
- Python floats are modelled as exact rationals (`ℚ`); decimal literals such
  as `0.98` denote the exact rational `49/50`.
- Python `int(...)` truncation toward zero is `ratTrunc`.
- Python objects are mutable and compared by identity in several places
  (`list.remove`, the collision pair set, the dataclass `color` field whose
  class defines no custom equality).  Object identity is made explicit by a
  numeric tag: every `Ball` carries `oid` (its own identity) and `colorId`
  (the identity of the `Color` object currently held in its `color` field).
  Two distinct objects never share a tag; a well-formedness hypothesis states
  this where a theorem needs it.
- `math.sqrt(d) < t` (for `d ≥ 0`) is encoded without square roots as
  `0 < t ∧ d < t^2`; this is exact, since the real square root is strictly
  monotone on nonnegatives and nonnegative itself.
- CPython list iteration (`for ball in self.balls`) reads successive indices
  of the evolving list: the iterator keeps an index `i`, yields `balls[i]`,
  increments to `i+1`, then runs the body.  When the body removes an element
  at an index `≤ i`, later elements shift left by one, so the element that
  was immediately after the removed position is never yielded.  `posLoop`
  below models this with a passed/todo split: a removal always discharges the
  element scanned first among equals, and the head of `todo` is skipped
  (moved to `passed` unprocessed) whenever a removal happened.
-/

/-- RGB color value; the constructor `mkColor` clamps each channel into
[0, 255] exactly like `Color.__init__`. -/
structure Color where
  r : ℤ
  g : ℤ
  b : ℤ
  deriving DecidableEq, Repr

/-- Channel clamp used by `Color.__init__`: `max(0, min(255, v))`. -/
def clampChannel (v : ℤ) : ℤ := max 0 (min 255 v)

/-- Embeds `Color(r, g, b)` construction. -/
def mkColor (r g b : ℤ) : Color := ⟨clampChannel r, clampChannel g, clampChannel b⟩

/-- Ball entity from `src/logic.py`.  `oid` is the object identity of the
ball, `colorId` the object identity of the `Color` instance in its `color`
field; both are embedding devices for Python reference semantics and carry no
numeric meaning. -/
structure Ball where
  oid : ℕ
  x : ℚ
  y : ℚ
  vx : ℚ
  vy : ℚ
  radius : ℚ
  colorId : ℕ
  color : Color
  deriving DecidableEq, Repr

/-- Python `==` on two `Ball` values, as used by `list.remove` and `in`:
`PyObject_RichCompareBool` first short-circuits on object identity, then
falls back to the dataclass-generated `__eq__`, which compares the field
tuple `(x, y, vx, vy, radius, color)`; the `color` field belongs to a class
without `__eq__`, so it is compared by object identity. -/
def pyEqBall (a b : Ball) : Bool :=
  a.oid == b.oid ||
    (a.x == b.x && a.y == b.y && a.vx == b.vx && a.vy == b.vy &&
      a.radius == b.radius && a.colorId == b.colorId)

/-- Squared distance between a ball's center and a point; `distance_to` and
the distance computed inside `suck_ball` are the real square root of this. -/
def ballDistSq (mx my : ℚ) (b : Ball) : ℚ := (b.x - mx) ^ 2 + (b.y - my) ^ 2

/-- Squared distance between the centers of two balls (`Ball.distance_to`
squared). -/
def ballSepSq (a b : Ball) : ℚ := (a.x - b.x) ^ 2 + (a.y - b.y) ^ 2

/-- Exact Boolean encoding of `Real.sqrt dSq < t` for `dSq ≥ 0`. -/
def sqrtLtB (dSq t : ℚ) : Bool := decide (0 < t) && decide (dSq < t ^ 2)

/-- Embeds `Ball.is_colliding`: `distance_to(other) < radius + other.radius`. -/
def isCollidingB (a b : Ball) : Bool := sqrtLtB (ballSepSq a b) (a.radius + b.radius)

/-- Embeds `DeleteZone`. -/
structure DeleteZone where
  x : ℚ
  y : ℚ
  width : ℚ
  height : ℚ
  deriving DecidableEq, Repr

/-- Embeds `DeleteZone.contains`: the ball's center lies in the closed
rectangle. -/
def dzContainsB (dz : DeleteZone) (b : Ball) : Bool :=
  decide (dz.x ≤ b.x) && decide (b.x ≤ dz.x + dz.width) &&
    decide (dz.y ≤ b.y) && decide (b.y ≤ dz.y + dz.height)

/-- Embeds the `GameLogic` state.  `freshId` is the embedding's supply of
unused object-identity tags for `Color` objects created during collision
mixing. -/
structure GameLogic where
  screen_width : ℚ
  screen_height : ℚ
  balls : List Ball
  inventory : List Ball
  delete_zone : DeleteZone
  friction : ℚ
  gravity : ℚ
  freshId : ℕ
  deriving DecidableEq, Repr

/-- Embeds `GameLogic.__init__`: empty collections, delete zone anchored at
the top-right corner, friction 0.98, gravity 0.2. -/
def mkGameLogic (w h : ℚ) : GameLogic :=
  { screen_width := w
    screen_height := h
    balls := []
    inventory := []
    delete_zone := ⟨w - 100, 0, 100, 100⟩
    friction := 0.98
    gravity := 0.2
    freshId := 0 }

/-- Embeds `GameLogic.remove_ball`: `if ball in self.balls:
self.balls.remove(ball)`, i.e. erase the first element Python-equal to the
argument, silently doing nothing when none is. -/
def remove_ball (gl : GameLogic) (b : Ball) : GameLogic :=
  { gl with balls := gl.balls.eraseP (fun e => pyEqBall e b) }

/-- Python truncation toward zero, `int(q)` for a float value `q`. -/
def ratTrunc (q : ℚ) : ℤ := if q < 0 then -((-q).floor) else q.floor

/-- Per-ball physics of the loop body of `GameLogic.update` (lines 117-140):
position integration, gravity, friction, then the horizontal and vertical
wall branches (each an if/elif). -/
def stepBall (gl : GameLogic) (dt : ℚ) (b0 : Ball) : Ball :=
  let b1 := { b0 with x := b0.x + b0.vx * dt, y := b0.y + b0.vy * dt }
  let b2 := { b1 with vy := b1.vy + gl.gravity * dt }
  let b3 := { b2 with vx := b2.vx * gl.friction, vy := b2.vy * gl.friction }
  let b4 :=
    if b3.x - b3.radius < 0 then { b3 with x := b3.radius, vx := -b3.vx * 0.7 }
    else if b3.x + b3.radius > gl.screen_width then
      { b3 with x := gl.screen_width - b3.radius, vx := -b3.vx * 0.7 }
    else b3
  if b4.y - b4.radius < 0 then { b4 with y := b4.radius, vy := -b4.vy * 0.7 }
  else if b4.y + b4.radius > gl.screen_height then
    { b4 with y := gl.screen_height - b4.radius, vy := -b4.vy * 0.7 }
  else b4

/-- Removal performed by the in-loop `self.remove_ball(ball)` call:
`cullPassed passed b'` is the part of the current list before the iterator
cursor after removing the first element Python-equal to the just-stepped,
in-zone ball `b'` from the whole current list `passed ++ [b'] ++ rest` (the
first match is in `passed` when one exists, otherwise it is `b'` itself;
the scan never reaches the elements after the cursor). -/
def cullPassed (passed : List Ball) (b' : Ball) : List Ball :=
  if passed.any (fun e => pyEqBall e b') then
    (passed.eraseP (fun e => pyEqBall e b')) ++ [b']
  else passed

/-- Position-update pass of `GameLogic.update` under CPython iterator
semantics (see the module comment): `passed` holds the list positions before
the iterator cursor, `todo` the positions at and after it.  A culled ball is
removed via `cullPassed`; a removal makes the iterator skip the element that
slides into the just-vacated slot, recorded by the `skip` flag: that element
moves to `passed` unprocessed. -/
def posLoopGo (gl : GameLogic) (dt : ℚ) : List Ball → Bool → List Ball → List Ball
  | passed, _, [] => passed
  | passed, true, c :: rest => posLoopGo gl dt (passed ++ [c]) false rest
  | passed, false, b :: rest =>
    let b' := stepBall gl dt b
    if dzContainsB gl.delete_zone b' then posLoopGo gl dt (cullPassed passed b') true rest
    else posLoopGo gl dt (passed ++ [b']) false rest

/-- Entry point of the position-update pass: cursor at the start, no pending
skip. -/
def posLoop (gl : GameLogic) (dt : ℚ) (passed todo : List Ball) : List Ball :=
  posLoopGo gl dt passed false todo

/-- Brightness of a color in `_mix_colors`: mean of the three channels. -/
def brightnessQ (c : Color) : ℚ := (c.r + c.g + c.b) / 3

/-- Total brightness with the near-black floor of `_mix_colors`. -/
def totalBrightness (c1 c2 : Color) : ℚ :=
  let t := brightnessQ c1 + brightnessQ c2
  if t < 0.1 then 0.1 else t

/-- Per-channel nonlinear blend of `_mix_colors`:
`int((ch1*w1 + ch2*w2) * 0.8 + (ch1*ch2/255.0) * 0.2)`. -/
def rawChannel (w1 w2 : ℚ) (ch1 ch2 : ℤ) : ℤ :=
  ratTrunc (((ch1 : ℚ) * w1 + (ch2 : ℚ) * w2) * 0.8 + ((ch1 : ℚ) * (ch2 : ℚ) / 255) * 0.2)

/-- Saturation adjustment of `_mix_colors`: brighten dark results
(`max_component < 128`) or apply the mild 1.1 contrast boost. -/
def satAdjust : ℤ × ℤ × ℤ → ℤ × ℤ × ℤ
  | (r, g, b) =>
    let maxComponent := max (max (max r g) b) 1
    if maxComponent < 128 then
      let scale : ℚ := 255 / (max maxComponent 1 : ℤ)
      (min 255 (ratTrunc ((r : ℚ) * scale * 0.7)),
       min 255 (ratTrunc ((g : ℚ) * scale * 0.7)),
       min 255 (ratTrunc ((b : ℚ) * scale * 0.7)))
    else
      (min 255 (ratTrunc ((r : ℚ) * 1.1)),
       min 255 (ratTrunc ((g : ℚ) * 1.1)),
       min 255 (ratTrunc ((b : ℚ) * 1.1)))

/-- Mean channel value used in the near-white test of `_mix_colors`. -/
def navg (r g b : ℤ) : ℚ := ((r : ℚ) + (g : ℚ) + (b : ℚ)) / 3

/-- Total absolute deviation from the mean used in the near-white test. -/
def nvariance (r g b : ℤ) : ℚ :=
  |(r : ℚ) - navg r g b| + |(g : ℚ) - navg r g b| + |(b : ℚ) - navg r g b|

/-- Washed-out suppression step of `_mix_colors`: when `variance < 30` and
`avg > 200`, boost the strictly dominant channel by 1.2 (blue on ties, per
the implemented else branch) and suppress the other two by 0.7. -/
def washFix : ℤ × ℤ × ℤ → ℤ × ℤ × ℤ
  | (r, g, b) =>
    if nvariance r g b < 30 ∧ navg r g b > 200 then
      if r > g ∧ r > b then
        (min 255 (ratTrunc ((r : ℚ) * 1.2)),
         max 0 (ratTrunc ((g : ℚ) * 0.7)),
         max 0 (ratTrunc ((b : ℚ) * 0.7)))
      else if g > r ∧ g > b then
        (max 0 (ratTrunc ((r : ℚ) * 0.7)),
         min 255 (ratTrunc ((g : ℚ) * 1.2)),
         max 0 (ratTrunc ((b : ℚ) * 0.7)))
      else
        (max 0 (ratTrunc ((r : ℚ) * 0.7)),
         max 0 (ratTrunc ((g : ℚ) * 0.7)),
         min 255 (ratTrunc ((b : ℚ) * 1.2)))
    else (r, g, b)

/-- Embeds `GameLogic._mix_colors` as the composition of its four stages:
brightness-weighted nonlinear blend, saturation adjustment, washed-out
suppression, and the defensive re-clamping `Color(r, g, b)`. -/
def mix_colors (c1 c2 : Color) : Color :=
  let w1 := brightnessQ c1 / totalBrightness c1 c2
  let w2 := brightnessQ c2 / totalBrightness c1 c2
  let rgb := washFix (satAdjust
    (rawChannel w1 w2 c1.r c2.r, rawChannel w1 w2 c1.g c2.g, rawChannel w1 w2 c1.b c2.b))
  mkColor rgb.1 rgb.2.1 rgb.2.2

/-- Single inner-loop body of `_handle_ball_collisions` for the index pair
`(i, j)`: if the balls collide and the unordered identity pair was not
processed yet, recolor both to one freshly created `Color` object holding the
mixed value. -/
def mixStep (st : List Ball × ℕ × List (ℕ × ℕ)) (i j : ℕ) : List Ball × ℕ × List (ℕ × ℕ) :=
  let l := st.1
  let fresh := st.2.1
  let processed := st.2.2
  match l[i]?, l[j]? with
  | some b1, some b2 =>
    if isCollidingB b1 b2 then
      let pid := (min b1.oid b2.oid, max b1.oid b2.oid)
      if processed.contains pid then st
      else
        let c := mix_colors b1.color b2.color
        ((l.set i { b1 with colorId := fresh, color := c }).set j
            { b2 with colorId := fresh, color := c },
          fresh + 1, pid :: processed)
    else st
  | _, _ => st

/-- Embeds `GameLogic._handle_ball_collisions`: scan every index pair `i < j`
of the (structurally unchanged) ball list in order, mixing colors of
colliding pairs.  Reads go through the current list, as the Python loop reads
the shared mutable objects. -/
def handle_ball_collisions (gl : GameLogic) : GameLogic :=
  let n := gl.balls.length
  let st := (List.range n).foldl
    (fun st1 i => (List.range n).foldl
      (fun st2 j => if i < j then mixStep st2 i j else st2) st1)
    (gl.balls, gl.freshId, ([] : List (ℕ × ℕ)))
  { gl with balls := st.1, freshId := st.2.1 }

/-- Embeds `GameLogic.update`: the position pass (with in-loop delete-zone
culling) followed by the collision-mixing pass. -/
def update (gl : GameLogic) (dt : ℚ) : GameLogic :=
  handle_ball_collisions { gl with balls := posLoop gl dt [] gl.balls }

/-- Accumulator step of the `suck_ball` scan.  The Python variable
`min_distance` starts at `radius` and afterwards holds actual distances; the
accumulator stores the squared distance of the current closest ball, and the
two comparison forms encode `distance < radius` and
`distance < min_distance` exactly (square root compared via squares). -/
def suckScan (mx my radius : ℚ) : List Ball → Option (Ball × ℚ) → Option (Ball × ℚ)
  | [], acc => acc
  | b :: rest, acc =>
    let dSq := ballDistSq mx my b
    let take : Bool :=
      match acc with
      | none => sqrtLtB dSq radius
      | some (_, best) => decide (dSq < best)
    suckScan mx my radius rest (if take then some (b, dSq) else acc)

/-- Embeds `GameLogic.suck_ball`: find the closest ball strictly within
`radius` of the mouse, remove it from `balls` (`list.remove`, first
Python-equal element) and append it to `inventory`. -/
def suck_ball (gl : GameLogic) (mx my radius : ℚ) : Option Ball × GameLogic :=
  match suckScan mx my radius gl.balls none with
  | some (b, _) =>
    (some b,
      { gl with
          balls := gl.balls.eraseP (fun e => pyEqBall e b)
          inventory := gl.inventory ++ [b] })
  | none => (none, gl)

/-- Embeds `GameLogic.spit_ball`.  The random angle is injected as the unit
vector `(cosA, sinA)` standing for `(cos θ, sin θ)` of the uniformly random
`θ`; theorems quantify over it under `cosA^2 + sinA^2 = 1`. -/
def spit_ball (gl : GameLogic) (mx my velocity cosA sinA : ℚ) : Option Ball × GameLogic :=
  match gl.inventory.getLast? with
  | none => (none, gl)
  | some b =>
    let b' := { b with x := mx, y := my, vx := cosA * velocity, vy := sinA * velocity }
    (some b',
      { gl with inventory := gl.inventory.dropLast, balls := gl.balls ++ [b'] })

/-- Post-clamp screen-bounds predicate from the spec:
`radius <= x <= screen_width - radius` and the same for `y`. -/
def inBoundsB (w h : ℚ) (b : Ball) : Bool :=
  decide (b.radius ≤ b.x) && decide (b.x ≤ w - b.radius) &&
    decide (b.radius ≤ b.y) && decide (b.y ≤ h - b.radius)

/-- Physical fields of a ball, everything except its color and the identity
tags; the collision-mixing pass leaves them untouched. -/
def physB (b : Ball) : ℚ × ℚ × ℚ × ℚ × ℚ := (b.x, b.y, b.vx, b.vy, b.radius)

lemma setGetElemSelf {α : Type} : ∀ (l : List α) (i : ℕ) (a : α),
    l[i]? = some a → l.set i a = l := by
  intro l
  induction l with
  | nil => intro i a h; simp at h
  | cons hd tl ih =>
    intro i a h
    cases i with
    | zero =>
      simp only [List.getElem?_cons_zero, Option.some.injEq] at h
      simp [h]
    | succ i =>
      simp only [List.getElem?_cons_succ] at h
      simp [List.set_cons_succ, ih i a h]

lemma foldlInv {α β : Type} (f : β → α → β) (P : β → Prop)
    (hf : ∀ st x, P st → P (f st x)) : ∀ (l : List α) (st : β), P st → P (l.foldl f st) := by
  intro l
  induction l with
  | nil => intro st h; simpa using h
  | cons hd tl ih => intro st h; exact ih (f st hd) (hf st hd h)

lemma mixStepPhys (st : List Ball × ℕ × List (ℕ × ℕ)) (i j : ℕ) :
    ((mixStep st i j).1).map physB = st.1.map physB := by
  cases h1 : st.1[i]? with
  | none => simp [mixStep, h1]
  | some b1 =>
    cases h2 : st.1[j]? with
    | none => simp [mixStep, h1, h2]
    | some b2 =>
      simp only [mixStep, h1, h2]
      split_ifs with hc hp
      · rfl
      · rw [List.map_set, List.map_set]
        have e1 : physB { b1 with colorId := st.2.1, color := mix_colors b1.color b2.color }
            = physB b1 := rfl
        have e2 : physB { b2 with colorId := st.2.1, color := mix_colors b1.color b2.color }
            = physB b2 := rfl
        rw [e1, e2]
        have g1 : (st.1.map physB)[i]? = some (physB b1) := by
          rw [List.getElem?_map, h1]; rfl
        have hset1 : (st.1.map physB).set i (physB b1) = st.1.map physB :=
          setGetElemSelf _ _ _ g1
        have g2 : ((st.1.map physB).set i (physB b1))[j]? = some (physB b2) := by
          rw [hset1, List.getElem?_map, h2]; rfl
        rw [setGetElemSelf _ _ _ g2, hset1]
      · rfl

lemma collisionsPhys (gl : GameLogic) :
    (handle_ball_collisions gl).balls.map physB = gl.balls.map physB := by
  unfold handle_ball_collisions
  refine foldlInv _
    (fun st : List Ball × ℕ × List (ℕ × ℕ) => st.1.map physB = gl.balls.map physB) ?_ _ _ rfl
  intro st i hst
  refine foldlInv _
    (fun st : List Ball × ℕ × List (ℕ × ℕ) => st.1.map physB = gl.balls.map physB) ?_ _ _ hst
  intro st2 j hst2
  by_cases hij : i < j
  · simpa [hij] using (mixStepPhys st2 i j).trans hst2
  · simpa [hij] using hst2

lemma posLoopNoCull (gl : GameLogic) (dt : ℚ) :
    ∀ (todo passed : List Ball),
    (∀ b ∈ todo, dzContainsB gl.delete_zone (stepBall gl dt b) = false) →
    posLoop gl dt passed todo = passed ++ todo.map (stepBall gl dt) := by
  intro todo
  induction todo with
  | nil => intro passed _; simp [posLoop, posLoopGo]
  | cons b rest ih =>
    intro passed h
    have hb : dzContainsB gl.delete_zone (stepBall gl dt b) = false :=
      h b (List.mem_cons_self b rest)
    have hrest : ∀ e ∈ rest, dzContainsB gl.delete_zone (stepBall gl dt e) = false :=
      fun e he => h e (List.mem_cons_of_mem b he)
    unfold posLoop at ih ⊢
    rw [posLoopGo]
    simp only [hb, Bool.false_eq_true, if_false]
    rw [ih (passed ++ [stepBall gl dt b]) hrest]
    simp

lemma stepBallBounds (gl : GameLogic) (dt : ℚ) (b : Ball)
    (hw : 2 * b.radius ≤ gl.screen_width) (hh : 2 * b.radius ≤ gl.screen_height) :
    inBoundsB gl.screen_width gl.screen_height (stepBall gl dt b) = true := by
  unfold stepBall
  dsimp only
  split_ifs <;>
    · simp only [inBoundsB, Bool.and_eq_true, decide_eq_true_eq] at *
      refine ⟨⟨⟨by linarith, by linarith⟩, by linarith⟩, by linarith⟩

lemma physBoundsCongr (w h : ℚ) (a c : Ball) (hp : physB a = physB c) :
    inBoundsB w h a = inBoundsB w h c := by
  simp only [physB, Prod.mk.injEq] at hp
  obtain ⟨hx, hy, hvx, hvy, hr⟩ := hp
  unfold inBoundsB
  rw [hx, hy, hr]

lemma erasePFirstBlock {α : Type} (p : α → Bool) :
    ∀ (l1 : List α) (b0 : α) (l2 : List α), (∀ e ∈ l1, p e = false) → p b0 = true →
    (l1 ++ b0 :: l2).eraseP p = l1 ++ l2 := by
  intro l1
  induction l1 with
  | nil => intro b0 l2 _ hpos; simpa using List.eraseP_cons_of_pos hpos
  | cons hd tl ih =>
    intro b0 l2 hneg hpos
    have hhd : ¬ p hd = true := by
      simp [hneg hd (List.mem_cons_self hd tl)]
    simp only [List.cons_append, List.eraseP_cons_of_neg hhd]
    rw [ih b0 l2 (fun e he => hneg e (List.mem_cons_of_mem hd he)) hpos]

/-- Claim C10: `update(dt)` leaves the `inventory` list entirely unchanged,
the same balls in the same order with unmodified fields. -/
theorem update_preserves_inventory (gl : GameLogic) (dt : ℚ) :
    (update gl dt).inventory = gl.inventory := rfl

/-- Claim C8: `a.is_colliding(b)` holds iff the Euclidean distance between
the centers is strictly below `a.radius + b.radius`; in particular two balls
whose centers are exactly `a.radius + b.radius` apart are not colliding. -/
theorem is_colliding_strict_iff (a b : Ball) :
    (isCollidingB a b = true ↔
      Real.sqrt (((a.x : ℝ) - (b.x : ℝ)) ^ 2 + ((a.y : ℝ) - (b.y : ℝ)) ^ 2)
        < (a.radius : ℝ) + (b.radius : ℝ)) ∧
    (0 ≤ a.radius + b.radius → ballSepSq a b = (a.radius + b.radius) ^ 2 →
      isCollidingB a b = false) := by
  have hd : ((ballSepSq a b : ℚ) : ℝ)
      = ((a.x : ℝ) - (b.x : ℝ)) ^ 2 + ((a.y : ℝ) - (b.y : ℝ)) ^ 2 := by
    unfold ballSepSq; push_cast; ring
  constructor
  · unfold isCollidingB sqrtLtB
    simp only [Bool.and_eq_true, decide_eq_true_eq]
    by_cases hs : 0 < a.radius + b.radius
    · have hs' : (0 : ℝ) < (a.radius : ℝ) + (b.radius : ℝ) := by exact_mod_cast hs
      rw [← hd, Real.sqrt_lt' hs']
      constructor
      · rintro ⟨-, h2⟩; exact_mod_cast h2
      · intro h; exact ⟨hs, by exact_mod_cast h⟩
    · have hs' : (a.radius : ℝ) + (b.radius : ℝ) ≤ 0 := by
        have : a.radius + b.radius ≤ 0 := le_of_not_lt hs
        exact_mod_cast this
      constructor
      · rintro ⟨h1, -⟩; exact absurd h1 hs
      · intro h
        exact absurd (lt_of_le_of_lt (Real.sqrt_nonneg _) h) (not_lt.mpr hs')
  · intro _ heq
    unfold isCollidingB sqrtLtB
    have : decide (ballSepSq a b < (a.radius + b.radius) ^ 2) = false := by
      simp [heq]
    simp [this]

/-- Claim C1 as amended: provided every ball's diameter fits the screen and
no ball is culled by the delete zone during the call (a cull makes the
iteration skip the next ball, leaving it unstepped and possibly out of
bounds), every ball in `balls` after `update(dt)` satisfies
`radius <= x <= screen_width - radius` and `radius <= y <= screen_height -
radius`. -/
theorem update_clamp_invariant_fit_nocull (gl : GameLogic) (dt : ℚ)
    (hfit : ∀ b ∈ gl.balls, 2 * b.radius ≤ gl.screen_width ∧ 2 * b.radius ≤ gl.screen_height)
    (hnocull : ∀ b ∈ gl.balls, dzContainsB gl.delete_zone (stepBall gl dt b) = false) :
    ∀ b ∈ (update gl dt).balls, inBoundsB gl.screen_width gl.screen_height b = true := by
  intro b hb
  have hpos : (update gl dt).balls.map physB
      = (gl.balls.map (stepBall gl dt)).map physB := by
    calc (update gl dt).balls.map physB
        = ({ gl with balls := posLoop gl dt [] gl.balls } : GameLogic).balls.map physB :=
          collisionsPhys { gl with balls := posLoop gl dt [] gl.balls }
      _ = (posLoop gl dt [] gl.balls).map physB := rfl
      _ = (gl.balls.map (stepBall gl dt)).map physB := by
            rw [posLoopNoCull gl dt gl.balls [] hnocull]; simp
  have hmem : physB b ∈ (gl.balls.map (stepBall gl dt)).map physB := by
    rw [← hpos]; exact List.mem_map_of_mem physB hb
  simp only [List.map_map, List.mem_map, Function.comp] at hmem
  obtain ⟨b0, hb0, hphys⟩ := hmem
  rw [physBoundsCongr gl.screen_width gl.screen_height b (stepBall gl dt b0) hphys.symm]
  exact stepBallBounds gl dt b0 (hfit b0 hb0).1 (hfit b0 hb0).2


/-- Claim C5 as amended: `remove_ball(b)` erases the first ball in `balls`
equal to `b` in the Python sense (identical object, or equal numeric fields
with the same Color object) and is a silent no-op when no such ball exists;
it removes `b` itself exactly when no earlier ball compares equal to it. -/
theorem remove_ball_first_equal (gl : GameLogic) (b : Ball) :
    ((∀ e ∈ gl.balls, pyEqBall e b = false) → remove_ball gl b = gl) ∧
    (∀ l1 b0 l2, gl.balls = l1 ++ b0 :: l2 → pyEqBall b0 b = true →
      (∀ e ∈ l1, pyEqBall e b = false) → (remove_ball gl b).balls = l1 ++ l2) := by
  constructor
  · intro h
    unfold remove_ball
    rw [List.eraseP_of_forall_not (fun a ha => by simp [h a ha])]
  · intro l1 b0 l2 hsplit hpos hneg
    unfold remove_ball
    simp only [hsplit]
    exact erasePFirstBlock _ l1 b0 l2 hneg hpos


lemma ratTrunc_le {q : ℚ} (h : 0 ≤ q) : (ratTrunc q : ℚ) ≤ q := by
  unfold ratTrunc
  rw [if_neg (not_lt.mpr h)]
  exact Rat.le_floor.mp le_rfl

lemma ratTrunc_nonneg {q : ℚ} (h : 0 ≤ q) : 0 ≤ ratTrunc q := by
  unfold ratTrunc
  rw [if_neg (not_lt.mpr h)]
  exact Rat.le_floor.mpr (by exact_mod_cast h)

lemma clampChannel_eq_self {v : ℤ} (h0 : 0 ≤ v) (h255 : v ≤ 255) : clampChannel v = v := by
  unfold clampChannel
  omega

lemma suppressBound {o : ℤ} (h0 : 0 ≤ o) (h255 : o ≤ 255) :
    max 0 (ratTrunc ((o : ℚ) * 0.7)) ≤ 178 := by
  have hnn : (0 : ℚ) ≤ (o : ℚ) * 0.7 := by
    have : (0 : ℚ) ≤ (o : ℚ) := by exact_mod_cast h0
    nlinarith
  have hle : (ratTrunc ((o : ℚ) * 0.7) : ℚ) ≤ (o : ℚ) * 0.7 := ratTrunc_le hnn
  have ho : (o : ℚ) ≤ 255 := by exact_mod_cast h255
  have hlt : (ratTrunc ((o : ℚ) * 0.7) : ℚ) < 179 := by nlinarith
  have : ratTrunc ((o : ℚ) * 0.7) < 179 := by exact_mod_cast hlt
  exact max_le (by norm_num) (by omega)

lemma boostMem {d : ℤ} (h0 : 0 ≤ d) :
    0 ≤ min 255 (ratTrunc ((d : ℚ) * 1.2)) ∧ min 255 (ratTrunc ((d : ℚ) * 1.2)) ≤ 255 := by
  refine ⟨le_min (by norm_num) (ratTrunc_nonneg ?_), min_le_left _ _⟩
  have : (0 : ℚ) ≤ (d : ℚ) := by exact_mod_cast h0
  nlinarith

/-- Output range of the washed-out suppression step. -/
lemma washFix_range (r g b : ℤ) (hr0 : 0 ≤ r) (hr : r ≤ 255) (hg0 : 0 ≤ g) (hg : g ≤ 255)
    (hb0 : 0 ≤ b) (hb : b ≤ 255) :
    (0 ≤ (washFix (r, g, b)).1 ∧ (washFix (r, g, b)).1 ≤ 255) ∧
    (0 ≤ (washFix (r, g, b)).2.1 ∧ (washFix (r, g, b)).2.1 ≤ 255) ∧
    (0 ≤ (washFix (r, g, b)).2.2 ∧ (washFix (r, g, b)).2.2 ≤ 255) := by
  unfold washFix
  dsimp only
  split_ifs <;>
    refine ⟨⟨?_, ?_⟩, ⟨?_, ?_⟩, ⟨?_, ?_⟩⟩ <;>
    first
      | exact (boostMem hr0).1
      | exact (boostMem hr0).2
      | exact (boostMem hg0).1
      | exact (boostMem hg0).2
      | exact (boostMem hb0).1
      | exact (boostMem hb0).2
      | exact le_max_left 0 _
      | exact le_trans (suppressBound hr0 hr) (by norm_num)
      | exact le_trans (suppressBound hg0 hg) (by norm_num)
      | exact le_trans (suppressBound hb0 hb) (by norm_num)
      | assumption

/-- Core of claim C4: whatever triple in the byte range enters the
suppression step, the triple that leaves it fails the near-white test
`variance < 30 and avg > 200`. -/
lemma washFix_no_washout (r g b : ℤ) (hr0 : 0 ≤ r) (hr : r ≤ 255) (hg0 : 0 ≤ g) (hg : g ≤ 255)
    (hb0 : 0 ≤ b) (hb : b ≤ 255) :
    ¬(nvariance (washFix (r, g, b)).1 (washFix (r, g, b)).2.1 (washFix (r, g, b)).2.2 < 30 ∧
      navg (washFix (r, g, b)).1 (washFix (r, g, b)).2.1 (washFix (r, g, b)).2.2 > 200) := by
  unfold washFix
  dsimp only
  split_ifs with hcond hrd hgd
  · -- red strictly dominant: red is boosted to at least 245, green capped at 178
    dsimp only
    rintro ⟨hv, ha⟩
    set R := min 255 (ratTrunc ((r : ℚ) * 1.2)) with hR
    set G := max 0 (ratTrunc ((g : ℚ) * 0.7)) with hG
    set B := max 0 (ratTrunc ((b : ℚ) * 0.7)) with hB
    have hG178 : G ≤ 178 := suppressBound hg0 hg
    have hB178 : B ≤ 178 := suppressBound hb0 hb
    have hsum : R + G + B ≥ 601 := by
      unfold navg at ha
      have : ((R : ℚ) + (G : ℚ) + (B : ℚ)) > 600 := by linarith
      have : ((R + G + B : ℤ) : ℚ) > 600 := by push_cast; linarith
      have : R + G + B > 600 := by exact_mod_cast this
      omega
    have hR245 : R ≥ 245 := by omega
    unfold nvariance at hv
    set m : ℚ := navg R G B with hm
    have t1 : (R : ℚ) - m ≤ |(R : ℚ) - m| := le_abs_self _
    have t2 : m - (G : ℚ) ≤ |(G : ℚ) - m| := by rw [abs_sub_comm]; exact le_abs_self _
    have t3 : (0 : ℚ) ≤ |(B : ℚ) - m| := abs_nonneg _
    have hRG : (245 : ℚ) - 178 ≤ (R : ℚ) - (G : ℚ) := by
      have c1 : (245 : ℚ) ≤ (R : ℚ) := by exact_mod_cast hR245
      have c2 : (G : ℚ) ≤ 178 := by exact_mod_cast hG178
      linarith
    linarith
  · -- green strictly dominant
    dsimp only
    rintro ⟨hv, ha⟩
    set R := max 0 (ratTrunc ((r : ℚ) * 0.7)) with hR
    set G := min 255 (ratTrunc ((g : ℚ) * 1.2)) with hG
    set B := max 0 (ratTrunc ((b : ℚ) * 0.7)) with hB
    have hR178 : R ≤ 178 := suppressBound hr0 hr
    have hB178 : B ≤ 178 := suppressBound hb0 hb
    have hsum : R + G + B ≥ 601 := by
      unfold navg at ha
      have : ((R : ℚ) + (G : ℚ) + (B : ℚ)) > 600 := by linarith
      have : ((R + G + B : ℤ) : ℚ) > 600 := by push_cast; linarith
      have : R + G + B > 600 := by exact_mod_cast this
      omega
    have hG245 : G ≥ 245 := by omega
    unfold nvariance at hv
    set m : ℚ := navg R G B with hm
    have t1 : (G : ℚ) - m ≤ |(G : ℚ) - m| := le_abs_self _
    have t2 : m - (R : ℚ) ≤ |(R : ℚ) - m| := by rw [abs_sub_comm]; exact le_abs_self _
    have t3 : (0 : ℚ) ≤ |(B : ℚ) - m| := abs_nonneg _
    have hGR : (245 : ℚ) - 178 ≤ (G : ℚ) - (R : ℚ) := by
      have c1 : (245 : ℚ) ≤ (G : ℚ) := by exact_mod_cast hG245
      have c2 : (R : ℚ) ≤ 178 := by exact_mod_cast hR178
      linarith
    linarith
  · -- tie or blue dominant: blue is boosted
    dsimp only
    rintro ⟨hv, ha⟩
    set R := max 0 (ratTrunc ((r : ℚ) * 0.7)) with hR
    set G := max 0 (ratTrunc ((g : ℚ) * 0.7)) with hG
    set B := min 255 (ratTrunc ((b : ℚ) * 1.2)) with hB
    have hR178 : R ≤ 178 := suppressBound hr0 hr
    have hG178 : G ≤ 178 := suppressBound hg0 hg
    have hsum : R + G + B ≥ 601 := by
      unfold navg at ha
      have : ((R : ℚ) + (G : ℚ) + (B : ℚ)) > 600 := by linarith
      have : ((R + G + B : ℤ) : ℚ) > 600 := by push_cast; linarith
      have : R + G + B > 600 := by exact_mod_cast this
      omega
    have hB245 : B ≥ 245 := by omega
    unfold nvariance at hv
    set m : ℚ := navg R G B with hm
    have t1 : (B : ℚ) - m ≤ |(B : ℚ) - m| := le_abs_self _
    have t2 : m - (R : ℚ) ≤ |(R : ℚ) - m| := by rw [abs_sub_comm]; exact le_abs_self _
    have t3 : (0 : ℚ) ≤ |(G : ℚ) - m| := abs_nonneg _
    have hBR : (245 : ℚ) - 178 ≤ (B : ℚ) - (R : ℚ) := by
      have c1 : (245 : ℚ) ≤ (B : ℚ) := by exact_mod_cast hB245
      have c2 : (R : ℚ) ≤ 178 := by exact_mod_cast hR178
      linarith
    linarith
  · -- the near-white test already fails before the step
    exact fun hc => ‹¬_› hc

/-- Channel-range predicate of a Python `Color` (the constructor clamps into
this range). -/
def colorInRange (c : Color) : Prop :=
  0 ≤ c.r ∧ c.r ≤ 255 ∧ 0 ≤ c.g ∧ c.g ≤ 255 ∧ 0 ≤ c.b ∧ c.b ≤ 255

instance (c : Color) : Decidable (colorInRange c) := by
  unfold colorInRange
  infer_instance

lemma minTruncMem {q : ℚ} (h : 0 ≤ q) :
    0 ≤ min 255 (ratTrunc q) ∧ min 255 (ratTrunc q) ≤ 255 :=
  ⟨le_min (by norm_num) (ratTrunc_nonneg h), min_le_left _ _⟩

lemma totalBrightness_pos (c1 c2 : Color) : 0 < totalBrightness c1 c2 := by
  unfold totalBrightness
  dsimp only
  split_ifs with h
  · norm_num
  · have := not_lt.mp h
    nlinarith

lemma brightnessQ_nonneg {c : Color} (h1 : 0 ≤ c.r) (h2 : 0 ≤ c.g) (h3 : 0 ≤ c.b) :
    0 ≤ brightnessQ c := by
  unfold brightnessQ
  have k1 : (0 : ℚ) ≤ (c.r : ℚ) := by exact_mod_cast h1
  have k2 : (0 : ℚ) ≤ (c.g : ℚ) := by exact_mod_cast h2
  have k3 : (0 : ℚ) ≤ (c.b : ℚ) := by exact_mod_cast h3
  linarith

lemma rawChannel_nonneg {w1 w2 : ℚ} {ch1 ch2 : ℤ} (hw1 : 0 ≤ w1) (hw2 : 0 ≤ w2)
    (h1 : 0 ≤ ch1) (h2 : 0 ≤ ch2) : 0 ≤ rawChannel w1 w2 ch1 ch2 := by
  unfold rawChannel
  apply ratTrunc_nonneg
  have c1 : (0 : ℚ) ≤ (ch1 : ℚ) := by exact_mod_cast h1
  have c2 : (0 : ℚ) ≤ (ch2 : ℚ) := by exact_mod_cast h2
  have hsum : (0 : ℚ) ≤ (ch1 : ℚ) * w1 + (ch2 : ℚ) * w2 :=
    add_nonneg (mul_nonneg c1 hw1) (mul_nonneg c2 hw2)
  have hprod : (0 : ℚ) ≤ (ch1 : ℚ) * (ch2 : ℚ) / 255 := div_nonneg (mul_nonneg c1 c2) (by norm_num)
  nlinarith

/-- Output range of the saturation-adjustment step on nonnegative inputs. -/
lemma satAdjust_range (r g b : ℤ) (hr0 : 0 ≤ r) (hg0 : 0 ≤ g) (hb0 : 0 ≤ b) :
    (0 ≤ (satAdjust (r, g, b)).1 ∧ (satAdjust (r, g, b)).1 ≤ 255) ∧
    (0 ≤ (satAdjust (r, g, b)).2.1 ∧ (satAdjust (r, g, b)).2.1 ≤ 255) ∧
    (0 ≤ (satAdjust (r, g, b)).2.2 ∧ (satAdjust (r, g, b)).2.2 ≤ 255) := by
  have cr : (0 : ℚ) ≤ (r : ℚ) := by exact_mod_cast hr0
  have cg : (0 : ℚ) ≤ (g : ℚ) := by exact_mod_cast hg0
  have cb : (0 : ℚ) ≤ (b : ℚ) := by exact_mod_cast hb0
  unfold satAdjust
  dsimp only
  split_ifs with hm
  · have hsc : (0 : ℚ) ≤ 255 / ((max (max (max (max r g) b) 1) 1 : ℤ) : ℚ) :=
      div_nonneg (by norm_num)
        (by exact_mod_cast le_trans zero_le_one (le_max_right (max (max (max r g) b) 1) 1))
    exact ⟨minTruncMem (mul_nonneg (mul_nonneg cr hsc) (by norm_num)),
      minTruncMem (mul_nonneg (mul_nonneg cg hsc) (by norm_num)),
      minTruncMem (mul_nonneg (mul_nonneg cb hsc) (by norm_num))⟩
  · exact ⟨minTruncMem (mul_nonneg cr (by norm_num)),
      minTruncMem (mul_nonneg cg (by norm_num)),
      minTruncMem (mul_nonneg cb (by norm_num))⟩

/-- Claim C4: `_mix_colors` never returns a color passing the near-white
test `variance < 30 and avg > 200` computed on its output channels, for
inputs whose channels lie in [0, 255]. -/
theorem mix_colors_not_washed_out (c1 c2 : Color) (h1 : colorInRange c1) (h2 : colorInRange c2) :
    ¬(nvariance (mix_colors c1 c2).r (mix_colors c1 c2).g (mix_colors c1 c2).b < 30 ∧
      navg (mix_colors c1 c2).r (mix_colors c1 c2).g (mix_colors c1 c2).b > 200) := by
  obtain ⟨h1r0, h1r, h1g0, h1g, h1b0, h1b⟩ := h1
  obtain ⟨h2r0, h2r, h2g0, h2g, h2b0, h2b⟩ := h2
  have hw1 : 0 ≤ brightnessQ c1 / totalBrightness c1 c2 :=
    div_nonneg (brightnessQ_nonneg h1r0 h1g0 h1b0) (le_of_lt (totalBrightness_pos c1 c2))
  have hw2 : 0 ≤ brightnessQ c2 / totalBrightness c1 c2 :=
    div_nonneg (brightnessQ_nonneg h2r0 h2g0 h2b0) (le_of_lt (totalBrightness_pos c1 c2))
  have hr0 := rawChannel_nonneg hw1 hw2 h1r0 h2r0
  have hg0 := rawChannel_nonneg hw1 hw2 h1g0 h2g0
  have hb0 := rawChannel_nonneg hw1 hw2 h1b0 h2b0
  obtain ⟨⟨s1a, s1b⟩, ⟨s2a, s2b⟩, ⟨s3a, s3b⟩⟩ := satAdjust_range _ _ _ hr0 hg0 hb0
  obtain ⟨⟨w1a, w1b⟩, ⟨w2a, w2b⟩, ⟨w3a, w3b⟩⟩ := washFix_range _ _ _ s1a s1b s2a s2b s3a s3b
  intro hcontra
  simp only [mix_colors, mkColor] at hcontra
  rw [clampChannel_eq_self w1a w1b, clampChannel_eq_self w2a w2b,
    clampChannel_eq_self w3a w3b] at hcontra
  exact washFix_no_washout _ _ _ s1a s1b s2a s2b s3a s3b hcontra

lemma rawChannel_swap (w1 w2 : ℚ) (a b : ℤ) : rawChannel w1 w2 a b = rawChannel w2 w1 b a := by
  unfold rawChannel
  congr 1
  ring

lemma totalBrightness_comm (c1 c2 : Color) : totalBrightness c1 c2 = totalBrightness c2 c1 := by
  unfold totalBrightness
  dsimp only
  rw [add_comm]

/-- Claim C9: `_mix_colors` is commutative; swapping the two input colors
produces the same output channels. -/
theorem mix_colors_comm (c1 c2 : Color) : mix_colors c1 c2 = mix_colors c2 c1 := by
  simp only [mix_colors]
  rw [totalBrightness_comm c2 c1]
  rw [rawChannel_swap (brightnessQ c2 / totalBrightness c1 c2)
      (brightnessQ c1 / totalBrightness c1 c2) c2.r c1.r,
    rawChannel_swap (brightnessQ c2 / totalBrightness c1 c2)
      (brightnessQ c1 / totalBrightness c1 c2) c2.g c1.g,
    rawChannel_swap (brightnessQ c2 / totalBrightness c1 c2)
      (brightnessQ c1 / totalBrightness c1 c2) c2.b c1.b]

lemma suckScan_none_char (mx my radius : ℚ) :
    ∀ (l : List Ball) (acc : Option (Ball × ℚ)),
    suckScan mx my radius l acc = none →
    acc = none ∧ ∀ e ∈ l, sqrtLtB (ballDistSq mx my e) radius = false := by
  intro l
  induction l with
  | nil => intro acc hs; exact ⟨hs, by simp⟩
  | cons h t ih =>
    intro acc hs
    simp only [suckScan] at hs
    rcases acc with _ | ⟨b0, d0⟩
    · dsimp only at hs
      by_cases htake : sqrtLtB (ballDistSq mx my h) radius = true
      · rw [if_pos htake] at hs
        obtain ⟨h1, -⟩ := ih _ hs
        exact absurd h1 (by simp)
      · rw [if_neg htake] at hs
        obtain ⟨-, hrest⟩ := ih _ hs
        refine ⟨rfl, ?_⟩
        intro e he
        rcases List.mem_cons.mp he with rfl | he'
        · simpa using htake
        · exact hrest e he'
    · dsimp only at hs
      by_cases htake : decide (ballDistSq mx my h < d0) = true
      · rw [if_pos htake] at hs
        obtain ⟨h1, -⟩ := ih _ hs
        exact absurd h1 (by simp)
      · rw [if_neg htake] at hs
        obtain ⟨h1, -⟩ := ih _ hs
        exact absurd h1 (by simp)

lemma suckScan_some_char (mx my radius : ℚ) :
    ∀ (l : List Ball) (acc : Option (Ball × ℚ)) (b : Ball) (d : ℚ),
    (∀ b0 d0, acc = some (b0, d0) → d0 = ballDistSq mx my b0 ∧ 0 < radius ∧ d0 < radius ^ 2) →
    suckScan mx my radius l acc = some (b, d) →
    d = ballDistSq mx my b ∧ 0 < radius ∧ d < radius ^ 2 ∧
    ((acc = some (b, d) ∧ ∀ e ∈ l, ¬(ballDistSq mx my e < d)) ∨
      (∃ l1 l2, l = l1 ++ b :: l2 ∧
        (∀ p : Ball × ℚ, acc = some p → d < p.2) ∧
        (∀ e ∈ l1, d < ballDistSq mx my e) ∧
        (∀ e ∈ l2, ¬(ballDistSq mx my e < d)))) := by
  intro l
  induction l with
  | nil =>
    intro acc b d hacc hs
    have hs' : acc = some (b, d) := hs
    obtain ⟨hd, hr, hlt⟩ := hacc b d hs'
    exact ⟨hd, hr, hlt, Or.inl ⟨hs', by simp⟩⟩
  | cons h t ih =>
    intro acc b d hacc hs
    simp only [suckScan] at hs
    rcases acc with _ | ⟨b0, d0⟩
    · dsimp only at hs
      by_cases htake : sqrtLtB (ballDistSq mx my h) radius = true
      · rw [if_pos htake] at hs
        have htr : 0 < radius ∧ ballDistSq mx my h < radius ^ 2 := by
          have := htake
          unfold sqrtLtB at this
          simpa using this
        have hacc' : ∀ b0 d0, (some (h, ballDistSq mx my h) : Option (Ball × ℚ)) = some (b0, d0) →
            d0 = ballDistSq mx my b0 ∧ 0 < radius ∧ d0 < radius ^ 2 := by
          rintro b0 d0 heq
          obtain ⟨rfl, rfl⟩ : h = b0 ∧ ballDistSq mx my h = d0 := by
            simpa [Prod.ext_iff] using heq
          exact ⟨rfl, htr.1, htr.2⟩
        obtain ⟨hd, hr, hlt, hcase⟩ := ih _ b d hacc' hs
        refine ⟨hd, hr, hlt, Or.inr ?_⟩
        rcases hcase with ⟨heq, hall⟩ | ⟨l1, l2, hsplit, haccp, hl1, hl2⟩
        · obtain ⟨rfl, rfl⟩ : h = b ∧ ballDistSq mx my h = d := by
            simpa [Prod.ext_iff] using heq
          exact ⟨[], t, rfl, by rintro p ⟨⟩, by simp, hall⟩
        · have hdh : d < ballDistSq mx my h := by
            have := haccp (h, ballDistSq mx my h) rfl
            simpa using this
          refine ⟨h :: l1, l2, by simp [hsplit], by rintro p ⟨⟩, ?_, hl2⟩
          intro e he
          rcases List.mem_cons.mp he with rfl | he'
          · exact hdh
          · exact hl1 e he'
      · rw [if_neg htake] at hs
        obtain ⟨hd, hr, hlt, hcase⟩ := ih _ b d (by rintro b0 d0 ⟨⟩) hs
        refine ⟨hd, hr, hlt, Or.inr ?_⟩
        rcases hcase with ⟨heq, -⟩ | ⟨l1, l2, hsplit, -, hl1, hl2⟩
        · exact absurd heq (by simp)
        · have hdh : d < ballDistSq mx my h := by
            have hnot : ¬(0 < radius ∧ ballDistSq mx my h < radius ^ 2) := by
              intro hc
              apply htake
              unfold sqrtLtB
              simp [hc.1, hc.2]
            have : ¬(ballDistSq mx my h < radius ^ 2) := fun hc => hnot ⟨hr, hc⟩
            calc d < radius ^ 2 := hlt
              _ ≤ ballDistSq mx my h := not_lt.mp this
          refine ⟨h :: l1, l2, by simp [hsplit], by rintro p ⟨⟩, ?_, hl2⟩
          intro e he
          rcases List.mem_cons.mp he with rfl | he'
          · exact hdh
          · exact hl1 e he'
    · dsimp only at hs
      obtain ⟨hd0, hr0, hlt0⟩ := hacc b0 d0 rfl
      by_cases htake : decide (ballDistSq mx my h < d0) = true
      · rw [if_pos htake] at hs
        have hhd0 : ballDistSq mx my h < d0 := by simpa using htake
        have hacc' : ∀ b1 d1, (some (h, ballDistSq mx my h) : Option (Ball × ℚ)) = some (b1, d1) →
            d1 = ballDistSq mx my b1 ∧ 0 < radius ∧ d1 < radius ^ 2 := by
          rintro b1 d1 heq
          obtain ⟨rfl, rfl⟩ : h = b1 ∧ ballDistSq mx my h = d1 := by
            simpa [Prod.ext_iff] using heq
          exact ⟨rfl, hr0, lt_trans hhd0 hlt0⟩
        obtain ⟨hd, hr, hlt, hcase⟩ := ih _ b d hacc' hs
        refine ⟨hd, hr, hlt, Or.inr ?_⟩
        rcases hcase with ⟨heq, hall⟩ | ⟨l1, l2, hsplit, haccp, hl1, hl2⟩
        · obtain ⟨rfl, rfl⟩ : h = b ∧ ballDistSq mx my h = d := by
            simpa [Prod.ext_iff] using heq
          refine ⟨[], t, rfl, ?_, by simp, hall⟩
          rintro p heqp
          obtain ⟨rfl, rfl⟩ : b0 = p.1 ∧ d0 = p.2 := by
            simpa [Prod.ext_iff] using heqp
          exact hhd0
        · have hdh : d < ballDistSq mx my h := by
            have := haccp (h, ballDistSq mx my h) rfl
            simpa using this
          refine ⟨h :: l1, l2, by simp [hsplit], ?_, ?_, hl2⟩
          · rintro p heqp
            obtain ⟨rfl, rfl⟩ : b0 = p.1 ∧ d0 = p.2 := by
              simpa [Prod.ext_iff] using heqp
            exact lt_trans hdh hhd0
          · intro e he
            rcases List.mem_cons.mp he with rfl | he'
            · exact hdh
            · exact hl1 e he'
      · rw [if_neg htake] at hs
        have hhd0 : ¬(ballDistSq mx my h < d0) := by simpa using htake
        obtain ⟨hd, hr, hlt, hcase⟩ := ih _ b d hacc hs
        refine ⟨hd, hr, hlt, ?_⟩
        rcases hcase with ⟨heq, hall⟩ | ⟨l1, l2, hsplit, haccp, hl1, hl2⟩
        · refine Or.inl ⟨heq, ?_⟩
          intro e he
          rcases List.mem_cons.mp he with rfl | he'
          · obtain ⟨rfl, rfl⟩ : b0 = b ∧ d0 = d := by
              simpa [Prod.ext_iff] using heq
            exact hhd0
          · exact hall e he'
        · refine Or.inr ⟨h :: l1, l2, by simp [hsplit], haccp, ?_, hl2⟩
          intro e he
          rcases List.mem_cons.mp he with rfl | he'
          · have hdd0 : d < d0 := haccp (b0, d0) rfl
            exact lt_of_lt_of_le hdd0 (not_lt.mp hhd0)
          · exact hl1 e he'

lemma pyEqBall_self (b : Ball) : pyEqBall b b = true := by simp [pyEqBall]

lemma pyEqBall_pos {e b : Ball} (h : pyEqBall e b = true) :
    e.oid = b.oid ∨ (e.x = b.x ∧ e.y = b.y) := by
  unfold pyEqBall at h
  simp only [Bool.or_eq_true, Bool.and_eq_true, beq_iff_eq] at h
  rcases h with h | h
  · exact Or.inl h
  · exact Or.inr ⟨h.1.1.1.1.1, h.1.1.1.1.2⟩

/-- Claim C7: `suck_ball(mx, my, radius)` selects the ball strictly within
`radius` of the mouse at minimal distance (squared distances compare the
same way as distances), breaking exact ties in favor of the first such ball
in collection order, moves it from `balls` to the end of `inventory` and
returns it; with no ball strictly in range it returns nothing and changes
nothing.  The hypothesis states that the `oid` tags faithfully model object
identity (two balls with the same tag are the same object). -/
theorem suck_ball_selects_closest (gl : GameLogic) (mx my r : ℚ)
    (hwf : ∀ e1 ∈ gl.balls, ∀ e2 ∈ gl.balls, e1.oid = e2.oid → e1 = e2) :
    ((suck_ball gl mx my r).1 = none →
      (∀ e ∈ gl.balls, ¬(0 < r ∧ ballDistSq mx my e < r ^ 2)) ∧
      (suck_ball gl mx my r).2 = gl) ∧
    ∀ b, (suck_ball gl mx my r).1 = some b →
      ∃ l1 l2, gl.balls = l1 ++ b :: l2 ∧
        (0 < r ∧ ballDistSq mx my b < r ^ 2) ∧
        (∀ e ∈ l1, ballDistSq mx my b < ballDistSq mx my e) ∧
        (∀ e ∈ l2, ballDistSq mx my b ≤ ballDistSq mx my e) ∧
        (suck_ball gl mx my r).2.balls = l1 ++ l2 ∧
        (suck_ball gl mx my r).2.inventory = gl.inventory ++ [b] := by
  cases hscan : suckScan mx my r gl.balls none with
  | none =>
    constructor
    · intro _
      obtain ⟨-, hall⟩ := suckScan_none_char mx my r gl.balls none hscan
      refine ⟨?_, ?_⟩
      · intro e he hc
        have hfalse := hall e he
        unfold sqrtLtB at hfalse
        simp [hc.1, hc.2] at hfalse
      · simp [suck_ball, hscan]
    · intro b hb
      simp [suck_ball, hscan] at hb
  | some p =>
    obtain ⟨b0, d0⟩ := p
    obtain ⟨hd, hr, hlt, hcase⟩ :=
      suckScan_some_char mx my r gl.balls none b0 d0 (by rintro x y ⟨⟩) hscan
    rcases hcase with ⟨h1, -⟩ | ⟨l1, l2, hsplit, -, hl1, hl2⟩
    · exact absurd h1 (by simp)
    constructor
    · intro hnone
      simp [suck_ball, hscan] at hnone
    · intro b hb
      have hb0 : b0 = b := by simpa [suck_ball, hscan] using hb
      subst hb0
      have hnopy : ∀ e ∈ l1, pyEqBall e b0 = false := by
        intro e he
        cases hpe : pyEqBall e b0 with
        | false => rfl
        | true =>
          exfalso
          have hmem_e : e ∈ gl.balls := by
            rw [hsplit]; exact List.mem_append_left _ he
          have hmem_b : b0 ∈ gl.balls := by
            rw [hsplit]; exact List.mem_append_right _ (List.mem_cons_self _ _)
          have hstrict := hl1 e he
          rcases pyEqBall_pos hpe with hoid | ⟨hx, hy⟩
          · have heb : e = b0 := hwf e hmem_e b0 hmem_b hoid
            rw [heb, ← hd] at hstrict
            exact lt_irrefl _ hstrict
          · have heq : ballDistSq mx my e = ballDistSq mx my b0 := by
              unfold ballDistSq; rw [hx, hy]
            rw [heq, ← hd] at hstrict
            exact lt_irrefl _ hstrict
      refine ⟨l1, l2, hsplit, ⟨hr, hd ▸ hlt⟩, ?_, ?_, ?_, ?_⟩
      · intro e he
        rw [← hd]
        exact hl1 e he
      · intro e he
        rw [← hd]
        exact not_lt.mp (hl2 e he)
      · have hsb : (suck_ball gl mx my r).2.balls
            = gl.balls.eraseP (fun e => pyEqBall e b0) := by
          simp [suck_ball, hscan]
        rw [hsb, hsplit]
        exact erasePFirstBlock _ l1 b0 l2 hnopy (pyEqBall_self b0)
      · simp [suck_ball, hscan]

/-- Claim C6: after a successful `suck_ball` returning ball `B`, `B` is the
last element of `inventory` and absent from `balls` (by object identity);
an immediately following `spit_ball(mx, my, velocity)` returns the same
object, which is then in `balls` and absent from `inventory`, positioned
exactly at `(mx, my)` with squared velocity magnitude `velocity ^ 2`, for
every spit angle (injected as a unit vector `(cA, sA)`).  The no-duplicate
hypothesis states that the `oid` tags model object identity across the two
collections. -/
theorem suck_spit_round_trip (gl : GameLogic) (mx0 my0 r : ℚ) (B : Ball) (gl2 : GameLogic)
    (hnd : ((gl.balls ++ gl.inventory).map Ball.oid).Nodup)
    (hs : suck_ball gl mx0 my0 r = (some B, gl2)) (mx my v cA sA : ℚ)
    (hangle : cA ^ 2 + sA ^ 2 = 1) :
    gl2.inventory.getLast? = some B ∧ (∀ e ∈ gl2.balls, e.oid ≠ B.oid) ∧
    ∃ B2 gl3, spit_ball gl2 mx my v cA sA = (some B2, gl3) ∧ B2.oid = B.oid ∧
      B2 ∈ gl3.balls ∧ (∀ e ∈ gl3.inventory, e.oid ≠ B.oid) ∧
      B2.x = mx ∧ B2.y = my ∧ B2.vx ^ 2 + B2.vy ^ 2 = v ^ 2 := by
  have hndb : (gl.balls.map Ball.oid).Nodup := by
    rw [List.map_append] at hnd
    exact hnd.of_append_left
  have hwf : ∀ e1 ∈ gl.balls, ∀ e2 ∈ gl.balls, e1.oid = e2.oid → e1 = e2 :=
    fun e1 h1 e2 h2 hoid => List.inj_on_of_nodup_map hndb h1 h2 hoid
  cases hscan : suckScan mx0 my0 r gl.balls none with
  | none => simp [suck_ball, hscan] at hs
  | some p =>
    obtain ⟨b0, d0⟩ := p
    obtain ⟨hd, hr, hlt, hcase⟩ :=
      suckScan_some_char mx0 my0 r gl.balls none b0 d0 (by rintro x y ⟨⟩) hscan
    rcases hcase with ⟨habs, -⟩ | ⟨l1, l2, hsplit, -, hl1, hl2⟩
    · exact absurd habs (by simp)
    simp only [suck_ball, hscan, Prod.mk.injEq, Option.some.injEq] at hs
    obtain ⟨hb0B, hgl2⟩ := hs
    subst hb0B
    have hBmem : b0 ∈ gl.balls := by
      rw [hsplit]; exact List.mem_append_right _ (List.mem_cons_self _ _)
    have hnopy : ∀ e ∈ l1, pyEqBall e b0 = false := by
      intro e he
      cases hpe : pyEqBall e b0 with
      | false => rfl
      | true =>
        exfalso
        have hmem_e : e ∈ gl.balls := by
          rw [hsplit]; exact List.mem_append_left _ he
        have hstrict := hl1 e he
        rcases pyEqBall_pos hpe with hoid | ⟨hx, hy⟩
        · have heb : e = b0 := hwf e hmem_e b0 hBmem hoid
          rw [heb, ← hd] at hstrict
          exact lt_irrefl _ hstrict
        · have heq : ballDistSq mx0 my0 e = ballDistSq mx0 my0 b0 := by
            unfold ballDistSq; rw [hx, hy]
          rw [heq, ← hd] at hstrict
          exact lt_irrefl _ hstrict
    have hballs2 : gl2.balls = l1 ++ l2 := by
      rw [← hgl2]
      show gl.balls.eraseP (fun e => pyEqBall e b0) = l1 ++ l2
      rw [hsplit]
      exact erasePFirstBlock _ l1 b0 l2 hnopy (pyEqBall_self b0)
    have hinv2 : gl2.inventory = gl.inventory ++ [b0] := by rw [← hgl2]
    have hlast : gl2.inventory.getLast? = some b0 := by
      rw [hinv2]; exact List.getLast?_concat _
    refine ⟨hlast, ?_, ?_⟩
    · intro e he
      have hmid : ((l1 ++ b0 :: l2).map Ball.oid).Nodup := hsplit ▸ hndb
      rw [List.map_append, List.map_cons, List.nodup_middle] at hmid
      have hnotmem : b0.oid ∉ l1.map Ball.oid ++ l2.map Ball.oid :=
        (List.nodup_cons.mp hmid).1
      rw [hballs2] at he
      intro hoid
      apply hnotmem
      rcases List.mem_append.mp he with h | h
      · exact List.mem_append_left _ (hoid ▸ List.mem_map_of_mem Ball.oid h)
      · exact List.mem_append_right _ (hoid ▸ List.mem_map_of_mem Ball.oid h)
    · refine ⟨{ b0 with x := mx, y := my, vx := cA * v, vy := sA * v }, { gl2 with inventory := gl2.inventory.dropLast, balls := gl2.balls ++ [{ b0 with x := mx, y := my, vx := cA * v, vy := sA * v }] }, ?_, rfl, ?_, ?_, rfl, rfl, ?_⟩
      · simp [spit_ball, hlast]
      · simp
      · intro e he
        have hdrop : gl2.inventory.dropLast = gl.inventory := by
          rw [hinv2]; exact List.dropLast_concat ..
        have he' : e ∈ gl.inventory := by
          rw [← hdrop]; exact he
        have hdisj : (gl.balls.map Ball.oid).Disjoint (gl.inventory.map Ball.oid) := by
          rw [List.map_append] at hnd
          exact List.disjoint_of_nodup_append hnd
        intro hoid
        exact hdisj (List.mem_map_of_mem Ball.oid hBmem)
          (hoid ▸ List.mem_map_of_mem Ball.oid he')
      · show (cA * v) ^ 2 + (sA * v) ^ 2 = v ^ 2
        have hr2 : (cA * v) ^ 2 + (sA * v) ^ 2 = (cA ^ 2 + sA ^ 2) * v ^ 2 := by ring
        rw [hr2, hangle, one_mul]

section ConcreteEvaluations

/- The Batteries rational operations are marked irreducible, which blocks
elaborator-side evaluation of concrete game states; restore the default
reducibility locally, inside this section only, so that `decide` can
evaluate them.  Kernel checking is unaffected by reducibility attributes. -/
attribute [local semireducible] Rat.add Rat.mul Rat.inv Rat.sub Rat.ofScientific

/-- Witness for C8 at a concrete tangent pair: centers 5 apart, radii 2 and
3, exactly touching and hence not colliding. -/
theorem is_colliding_strict_iff_witness :
    (0 ≤ (⟨1, 0, 0, 0, 0, 2, 0, ⟨0, 0, 0⟩⟩ : Ball).radius
        + (⟨2, 5, 0, 0, 0, 3, 0, ⟨0, 0, 0⟩⟩ : Ball).radius ∧
      ballSepSq ⟨1, 0, 0, 0, 0, 2, 0, ⟨0, 0, 0⟩⟩ ⟨2, 5, 0, 0, 0, 3, 0, ⟨0, 0, 0⟩⟩
        = ((⟨1, 0, 0, 0, 0, 2, 0, ⟨0, 0, 0⟩⟩ : Ball).radius
            + (⟨2, 5, 0, 0, 0, 3, 0, ⟨0, 0, 0⟩⟩ : Ball).radius) ^ 2) ∧
    isCollidingB ⟨1, 0, 0, 0, 0, 2, 0, ⟨0, 0, 0⟩⟩ ⟨2, 5, 0, 0, 0, 3, 0, ⟨0, 0, 0⟩⟩ = false :=
  ⟨⟨by decide, by decide⟩,
    (is_colliding_strict_iff ⟨1, 0, 0, 0, 0, 2, 0, ⟨0, 0, 0⟩⟩
      ⟨2, 5, 0, 0, 0, 3, 0, ⟨0, 0, 0⟩⟩).2 (by decide) (by decide)⟩

/-- Counterexample to claim C1 as stated: on an 800x600 screen, a resting
ball of radius 500 is clamped against the left and top walls only (the
if/elif structure fires one branch per axis), ending at (500, 500), which
violates `x <= screen_width - radius`; it was never culled (the result still
holds exactly the one ball, object 1). -/
theorem update_clamp_invariant_cex :
    ((update { mkGameLogic 800 600 with
        balls := [⟨1, 400, 300, 0, 0, 500, 7, ⟨10, 20, 30⟩⟩] } 1).balls.map Ball.oid = [1]) ∧
    ((update { mkGameLogic 800 600 with
        balls := [⟨1, 400, 300, 0, 0, 500, 7, ⟨10, 20, 30⟩⟩] } 1).balls.all
      (fun b => inBoundsB 800 600 b) = false) := by decide

/-- Witness for the amended C1 at a concrete one-ball state. -/
theorem update_clamp_invariant_fit_nocull_witness :
    ((∀ b ∈ ({ mkGameLogic 800 600 with
        balls := [⟨1, 400, 300, 0, 0, 15, 7, ⟨10, 20, 30⟩⟩] } : GameLogic).balls,
        2 * b.radius ≤ (800 : ℚ) ∧ 2 * b.radius ≤ (600 : ℚ)) ∧
      (∀ b ∈ ({ mkGameLogic 800 600 with
        balls := [⟨1, 400, 300, 0, 0, 15, 7, ⟨10, 20, 30⟩⟩] } : GameLogic).balls,
        dzContainsB ({ mkGameLogic 800 600 with
            balls := [⟨1, 400, 300, 0, 0, 15, 7, ⟨10, 20, 30⟩⟩] } : GameLogic).delete_zone
          (stepBall { mkGameLogic 800 600 with
            balls := [⟨1, 400, 300, 0, 0, 15, 7, ⟨10, 20, 30⟩⟩] } 1 b) = false)) ∧
    ∀ b ∈ (update { mkGameLogic 800 600 with
        balls := [⟨1, 400, 300, 0, 0, 15, 7, ⟨10, 20, 30⟩⟩] } 1).balls,
      inBoundsB 800 600 b = true :=
  ⟨⟨by decide, by decide⟩,
    update_clamp_invariant_fit_nocull
      { mkGameLogic 800 600 with balls := [⟨1, 400, 300, 0, 0, 15, 7, ⟨10, 20, 30⟩⟩] } 1
      (by decide) (by decide)⟩

/-- Claim C2, evaluated at the failing input: ball 1 rests inside the delete
zone and is culled, which makes the loop skip ball 2; ball 3 is then stepped
to (750, 60), inside the delete zone, but `balls.remove` deletes ball 2 (a
distinct object whose fields happen to equal the stepped ball 3 and which
shares its Color object) instead, so the stepped in-zone ball 3 is still in
`balls` when the collision-mixing pass runs. -/
theorem delete_zone_cull_alias_eval :
    (update { mkGameLogic 800 600 with
        balls := [⟨1, 750, 50, 0, 0, 15, 10, ⟨1, 2, 3⟩⟩,
                  ⟨2, 750, 60, 49/5, 49/250, 15, 20, ⟨4, 5, 6⟩⟩,
                  ⟨3, 740, 60, 10, 0, 15, 20, ⟨4, 5, 6⟩⟩] } 1).balls
      = [stepBall { mkGameLogic 800 600 with
            balls := [⟨1, 750, 50, 0, 0, 15, 10, ⟨1, 2, 3⟩⟩,
                      ⟨2, 750, 60, 49/5, 49/250, 15, 20, ⟨4, 5, 6⟩⟩,
                      ⟨3, 740, 60, 10, 0, 15, 20, ⟨4, 5, 6⟩⟩] } 1
          ⟨3, 740, 60, 10, 0, 15, 20, ⟨4, 5, 6⟩⟩] ∧
    dzContainsB ({ mkGameLogic 800 600 with
        balls := [⟨1, 750, 50, 0, 0, 15, 10, ⟨1, 2, 3⟩⟩,
                  ⟨2, 750, 60, 49/5, 49/250, 15, 20, ⟨4, 5, 6⟩⟩,
                  ⟨3, 740, 60, 10, 0, 15, 20, ⟨4, 5, 6⟩⟩] } : GameLogic).delete_zone
      (stepBall { mkGameLogic 800 600 with
          balls := [⟨1, 750, 50, 0, 0, 15, 10, ⟨1, 2, 3⟩⟩,
                    ⟨2, 750, 60, 49/5, 49/250, 15, 20, ⟨4, 5, 6⟩⟩,
                    ⟨3, 740, 60, 10, 0, 15, 20, ⟨4, 5, 6⟩⟩] } 1
        ⟨3, 740, 60, 10, 0, 15, 20, ⟨4, 5, 6⟩⟩) = true := by decide

/-- Claim C3, evaluated at the failing input: ball 1 rests inside the delete
zone and is culled during the pass; the iterator then skips ball 2, which
emerges from `update` with every field untouched even though its per-ball
step (gravity, friction) would have changed it. -/
theorem update_step_every_ball_eval :
    (update { mkGameLogic 800 600 with
        balls := [⟨1, 750, 50, 0, 0, 15, 10, ⟨1, 2, 3⟩⟩,
                  ⟨2, 400, 300, 0, 0, 15, 11, ⟨4, 5, 6⟩⟩] } 1).balls
      = [⟨2, 400, 300, 0, 0, 15, 11, ⟨4, 5, 6⟩⟩] ∧
    stepBall { mkGameLogic 800 600 with
        balls := [⟨1, 750, 50, 0, 0, 15, 10, ⟨1, 2, 3⟩⟩,
                  ⟨2, 400, 300, 0, 0, 15, 11, ⟨4, 5, 6⟩⟩] } 1
      ⟨2, 400, 300, 0, 0, 15, 11, ⟨4, 5, 6⟩⟩ ≠ ⟨2, 400, 300, 0, 0, 15, 11, ⟨4, 5, 6⟩⟩ := by
  decide

/-- Counterexample to claim C5 as stated: two distinct ball objects with
identical fields that share one Color object; `remove_ball` called with the
second object removes the first one (Python `list.remove` deletes the first
list element comparing equal), so a distinct but equal ball is removed and
the argument itself stays. -/
theorem remove_ball_identity_cex :
    (remove_ball { mkGameLogic 800 600 with
        balls := [⟨1, 100, 100, 0, 0, 15, 7, ⟨1, 2, 3⟩⟩,
                  ⟨2, 100, 100, 0, 0, 15, 7, ⟨1, 2, 3⟩⟩] }
        ⟨2, 100, 100, 0, 0, 15, 7, ⟨1, 2, 3⟩⟩).balls
      = [⟨2, 100, 100, 0, 0, 15, 7, ⟨1, 2, 3⟩⟩] ∧
    (⟨1, 100, 100, 0, 0, 15, 7, ⟨1, 2, 3⟩⟩ : Ball) ≠ ⟨2, 100, 100, 0, 0, 15, 7, ⟨1, 2, 3⟩⟩ := by
  decide

/-- Witness for the amended C5: removing the second of two unequal balls
erases exactly it. -/
theorem remove_ball_first_equal_witness :
    (({ mkGameLogic 800 600 with
        balls := [⟨1, 0, 0, 0, 0, 15, 5, ⟨1, 2, 3⟩⟩,
                  ⟨2, 9, 9, 0, 0, 15, 7, ⟨1, 2, 3⟩⟩] } : GameLogic).balls
        = [⟨1, 0, 0, 0, 0, 15, 5, ⟨1, 2, 3⟩⟩] ++ ⟨2, 9, 9, 0, 0, 15, 7, ⟨1, 2, 3⟩⟩ :: [] ∧
      pyEqBall ⟨2, 9, 9, 0, 0, 15, 7, ⟨1, 2, 3⟩⟩ ⟨2, 9, 9, 0, 0, 15, 7, ⟨1, 2, 3⟩⟩ = true ∧
      (∀ e ∈ [(⟨1, 0, 0, 0, 0, 15, 5, ⟨1, 2, 3⟩⟩ : Ball)],
        pyEqBall e ⟨2, 9, 9, 0, 0, 15, 7, ⟨1, 2, 3⟩⟩ = false)) ∧
    (remove_ball { mkGameLogic 800 600 with
        balls := [⟨1, 0, 0, 0, 0, 15, 5, ⟨1, 2, 3⟩⟩,
                  ⟨2, 9, 9, 0, 0, 15, 7, ⟨1, 2, 3⟩⟩] }
      ⟨2, 9, 9, 0, 0, 15, 7, ⟨1, 2, 3⟩⟩).balls
      = [⟨1, 0, 0, 0, 0, 15, 5, ⟨1, 2, 3⟩⟩] ++ [] :=
  ⟨⟨rfl, by decide, by decide⟩,
    (remove_ball_first_equal { mkGameLogic 800 600 with
        balls := [⟨1, 0, 0, 0, 0, 15, 5, ⟨1, 2, 3⟩⟩,
                  ⟨2, 9, 9, 0, 0, 15, 7, ⟨1, 2, 3⟩⟩] }
      ⟨2, 9, 9, 0, 0, 15, 7, ⟨1, 2, 3⟩⟩).2
      [⟨1, 0, 0, 0, 0, 15, 5, ⟨1, 2, 3⟩⟩] ⟨2, 9, 9, 0, 0, 15, 7, ⟨1, 2, 3⟩⟩ [] rfl
      (by decide) (by decide)⟩

/-- Witness for C4 at the spec's concrete scenario: mixing (200,200,200)
with (210,210,210) yields a color failing the near-white test. -/
theorem mix_colors_not_washed_out_witness :
    (colorInRange ⟨200, 200, 200⟩ ∧ colorInRange ⟨210, 210, 210⟩) ∧
    ¬(nvariance (mix_colors ⟨200, 200, 200⟩ ⟨210, 210, 210⟩).r
        (mix_colors ⟨200, 200, 200⟩ ⟨210, 210, 210⟩).g
        (mix_colors ⟨200, 200, 200⟩ ⟨210, 210, 210⟩).b < 30 ∧
      navg (mix_colors ⟨200, 200, 200⟩ ⟨210, 210, 210⟩).r
        (mix_colors ⟨200, 200, 200⟩ ⟨210, 210, 210⟩).g
        (mix_colors ⟨200, 200, 200⟩ ⟨210, 210, 210⟩).b > 200) :=
  ⟨⟨by decide, by decide⟩,
    mix_colors_not_washed_out ⟨200, 200, 200⟩ ⟨210, 210, 210⟩ (by decide) (by decide)⟩

/-- Witness for C7: of two balls, only ball 2 lies strictly within radius 50
of the mouse at (100, 100); it is selected, removed from `balls` and
appended to `inventory`. -/
theorem suck_ball_selects_closest_witness :
    ((∀ e1 ∈ ({ mkGameLogic 800 600 with
        balls := [⟨1, 300, 300, 0, 0, 15, 5, ⟨1, 2, 3⟩⟩,
                  ⟨2, 110, 100, 0, 0, 15, 6, ⟨4, 5, 6⟩⟩] } : GameLogic).balls,
      ∀ e2 ∈ ({ mkGameLogic 800 600 with
        balls := [⟨1, 300, 300, 0, 0, 15, 5, ⟨1, 2, 3⟩⟩,
                  ⟨2, 110, 100, 0, 0, 15, 6, ⟨4, 5, 6⟩⟩] } : GameLogic).balls,
      e1.oid = e2.oid → e1 = e2) ∧
      (suck_ball { mkGameLogic 800 600 with
        balls := [⟨1, 300, 300, 0, 0, 15, 5, ⟨1, 2, 3⟩⟩,
                  ⟨2, 110, 100, 0, 0, 15, 6, ⟨4, 5, 6⟩⟩] } 100 100 50).1
        = some ⟨2, 110, 100, 0, 0, 15, 6, ⟨4, 5, 6⟩⟩) ∧
    ∃ l1 l2, ({ mkGameLogic 800 600 with
        balls := [⟨1, 300, 300, 0, 0, 15, 5, ⟨1, 2, 3⟩⟩,
                  ⟨2, 110, 100, 0, 0, 15, 6, ⟨4, 5, 6⟩⟩] } : GameLogic).balls
        = l1 ++ (⟨2, 110, 100, 0, 0, 15, 6, ⟨4, 5, 6⟩⟩ : Ball) :: l2 ∧
      (0 < (50 : ℚ) ∧ ballDistSq 100 100 ⟨2, 110, 100, 0, 0, 15, 6, ⟨4, 5, 6⟩⟩ < 50 ^ 2) ∧
      (∀ e ∈ l1, ballDistSq 100 100 ⟨2, 110, 100, 0, 0, 15, 6, ⟨4, 5, 6⟩⟩
          < ballDistSq 100 100 e) ∧
      (∀ e ∈ l2, ballDistSq 100 100 ⟨2, 110, 100, 0, 0, 15, 6, ⟨4, 5, 6⟩⟩
          ≤ ballDistSq 100 100 e) ∧
      (suck_ball { mkGameLogic 800 600 with
        balls := [⟨1, 300, 300, 0, 0, 15, 5, ⟨1, 2, 3⟩⟩,
                  ⟨2, 110, 100, 0, 0, 15, 6, ⟨4, 5, 6⟩⟩] } 100 100 50).2.balls = l1 ++ l2 ∧
      (suck_ball { mkGameLogic 800 600 with
        balls := [⟨1, 300, 300, 0, 0, 15, 5, ⟨1, 2, 3⟩⟩,
                  ⟨2, 110, 100, 0, 0, 15, 6, ⟨4, 5, 6⟩⟩] } 100 100 50).2.inventory
        = ({ mkGameLogic 800 600 with
        balls := [⟨1, 300, 300, 0, 0, 15, 5, ⟨1, 2, 3⟩⟩,
                  ⟨2, 110, 100, 0, 0, 15, 6, ⟨4, 5, 6⟩⟩] } : GameLogic).inventory
          ++ [⟨2, 110, 100, 0, 0, 15, 6, ⟨4, 5, 6⟩⟩] :=
  ⟨⟨by decide, by decide⟩,
    (suck_ball_selects_closest { mkGameLogic 800 600 with
        balls := [⟨1, 300, 300, 0, 0, 15, 5, ⟨1, 2, 3⟩⟩,
                  ⟨2, 110, 100, 0, 0, 15, 6, ⟨4, 5, 6⟩⟩] } 100 100 50 (by decide)).2
      ⟨2, 110, 100, 0, 0, 15, 6, ⟨4, 5, 6⟩⟩ (by decide)⟩

/-- Witness for C6: one ball is sucked from (100, 100) and spat back at
(200, 300) with speed 5 and angle vector (3/5, 4/5). -/
theorem suck_spit_round_trip_witness :
    (((({ mkGameLogic 800 600 with
        balls := [⟨1, 100, 100, 2, 3, 15, 7, ⟨1, 2, 3⟩⟩] } : GameLogic).balls
        ++ ({ mkGameLogic 800 600 with
        balls := [⟨1, 100, 100, 2, 3, 15, 7, ⟨1, 2, 3⟩⟩] } : GameLogic).inventory).map
        Ball.oid).Nodup ∧
      suck_ball { mkGameLogic 800 600 with
        balls := [⟨1, 100, 100, 2, 3, 15, 7, ⟨1, 2, 3⟩⟩] } 100 100 50
        = (some ⟨1, 100, 100, 2, 3, 15, 7, ⟨1, 2, 3⟩⟩,
          { mkGameLogic 800 600 with
            inventory := [⟨1, 100, 100, 2, 3, 15, 7, ⟨1, 2, 3⟩⟩] }) ∧
      (3/5 : ℚ) ^ 2 + (4/5 : ℚ) ^ 2 = 1) ∧
    (({ mkGameLogic 800 600 with
        inventory := [⟨1, 100, 100, 2, 3, 15, 7, ⟨1, 2, 3⟩⟩] } : GameLogic).inventory.getLast?
        = some ⟨1, 100, 100, 2, 3, 15, 7, ⟨1, 2, 3⟩⟩ ∧
      (∀ e ∈ ({ mkGameLogic 800 600 with
        inventory := [⟨1, 100, 100, 2, 3, 15, 7, ⟨1, 2, 3⟩⟩] } : GameLogic).balls,
        e.oid ≠ (⟨1, 100, 100, 2, 3, 15, 7, ⟨1, 2, 3⟩⟩ : Ball).oid) ∧
      ∃ B2 gl3, spit_ball { mkGameLogic 800 600 with
          inventory := [⟨1, 100, 100, 2, 3, 15, 7, ⟨1, 2, 3⟩⟩] } 200 300 5 (3/5) (4/5)
          = (some B2, gl3) ∧
        B2.oid = (⟨1, 100, 100, 2, 3, 15, 7, ⟨1, 2, 3⟩⟩ : Ball).oid ∧
        B2 ∈ gl3.balls ∧
        (∀ e ∈ gl3.inventory, e.oid ≠ (⟨1, 100, 100, 2, 3, 15, 7, ⟨1, 2, 3⟩⟩ : Ball).oid) ∧
        B2.x = 200 ∧ B2.y = 300 ∧ B2.vx ^ 2 + B2.vy ^ 2 = (5 : ℚ) ^ 2) :=
  ⟨⟨by decide, by decide, by norm_num⟩,
    suck_spit_round_trip { mkGameLogic 800 600 with
        balls := [⟨1, 100, 100, 2, 3, 15, 7, ⟨1, 2, 3⟩⟩] } 100 100 50
      ⟨1, 100, 100, 2, 3, 15, 7, ⟨1, 2, 3⟩⟩
      { mkGameLogic 800 600 with inventory := [⟨1, 100, 100, 2, 3, 15, 7, ⟨1, 2, 3⟩⟩] }
      (by decide) (by decide) 200 300 5 (3/5) (4/5) (by norm_num)⟩

end ConcreteEvaluations
